import Mathlib

set_option maxRecDepth 8000

/-!
Verification of the hub75-rs HUB75 LED matrix driver: a shallow embedding of
the color model, frame buffer, display engine and animation controller,
together with theorems settling the specification claims.

Machine integers are modeled as `Nat` with explicit `% 2^w` reductions at the
operations where Rust wraps (release semantics); fallible Rust functions
returning `Result` are modeled with `Except`, and the one unguarded division
that can panic is modeled with `Option`.
-/

namespace Hub75

/-- Animation-specific errors (src/error.rs). -/
inductive AnimationError where
  | TooFast
  | InvalidData
  | InvalidDuration
deriving DecidableEq

/-- Errors of the HUB75 driver (src/error.rs). The Rust constructor
`AnimationError(AnimationError)` is rendered `animation`. -/
inductive Hub75Error where
  | PinError
  | InvalidCoordinates
  | InvalidColor
  | animation (e : AnimationError)
  | BufferOverflow
deriving DecidableEq

/-- RGB color with `BITS` bits per channel (src/color.rs, `Hub75Color`).
Channels are `u8` in the source; they are modeled as `Nat`, with the
wrap-around of `u8` arithmetic made explicit (`% 256`) at each operation
that can overflow. -/
structure Color where
  r : Nat
  g : Nat
  b : Nat
deriving DecidableEq

/-- `Hub75Color::MAX_VALUE = (1 << BITS) - 1` (src/color.rs line 63). The
source computes this constant in `u8`, so the expression only evaluates for
`BITS < 8`; this total function agrees with the source on that domain.
`Color.MAX_VALUE_checked` models the `u8` const evaluation itself, whose
left-shift overflow for `BITS ≥ 8` is a hard error. -/
def Color.MAX_VALUE (BITS : Nat) : Nat := (1 <<< BITS) - 1

/-- The `u8` const evaluation of `Hub75Color::MAX_VALUE` (src/color.rs
line 63): `1u8 << BITS` is an overflowing shift for `BITS ≥ 8`, and overflow
in const evaluation is a hard error (the constant has no value), modeled as
`none`. -/
def Color.MAX_VALUE_checked (BITS : Nat) : Option Nat :=
  if BITS < 8 then some ((1 <<< BITS) - 1) else none

/-- `Hub75Color::new` (src/color.rs lines 67-85): each channel is clamped to
`MAX_VALUE` when it exceeds it. -/
def Color.new (BITS : Nat) (r g b : Nat) : Color :=
  { r := if r > Color.MAX_VALUE BITS then Color.MAX_VALUE BITS else r
    g := if g > Color.MAX_VALUE BITS then Color.MAX_VALUE BITS else g
    b := if b > Color.MAX_VALUE BITS then Color.MAX_VALUE BITS else b }

/-- `Hub75Color::black` (src/color.rs lines 88-90). -/
def Color.black : Color := { r := 0, g := 0, b := 0 }

/-- `Hub75Color::white` (src/color.rs lines 93-99). -/
def Color.white (BITS : Nat) : Color :=
  { r := Color.MAX_VALUE BITS, g := Color.MAX_VALUE BITS, b := Color.MAX_VALUE BITS }

/-- `Hub75Color::red` (src/color.rs lines 102-108). -/
def Color.red (BITS : Nat) : Color :=
  { r := Color.MAX_VALUE BITS, g := 0, b := 0 }

/-- `Hub75Color::green` (src/color.rs lines 111-117). -/
def Color.green (BITS : Nat) : Color :=
  { r := 0, g := Color.MAX_VALUE BITS, b := 0 }

/-- `Hub75Color::blue` (src/color.rs lines 120-126). -/
def Color.blue (BITS : Nat) : Color :=
  { r := 0, g := 0, b := Color.MAX_VALUE BITS }

/-- `Hub75Color::get_bit` (src/color.rs lines 129-140): the three channel bits
of plane `bit_plane`, or `(false, false, false)` when the plane is out of
range. -/
def Color.get_bit (BITS : Nat) (c : Color) (bit_plane : Nat) : Bool × Bool × Bool :=
  if bit_plane ≥ BITS then (false, false, false)
  else ((c.r &&& (1 <<< bit_plane)) ≠ 0, (c.g &&& (1 <<< bit_plane)) ≠ 0,
        (c.b &&& (1 <<< bit_plane)) ≠ 0)

/-- `Hub75Color::from_rgb8` (src/color.rs lines 143-150). -/
def Color.from_rgb8 (BITS : Nat) (r g b : Nat) : Color :=
  if BITS ≥ 8 then Color.new BITS r g b
  else Color.new BITS (r >>> (8 - BITS)) (g >>> (8 - BITS)) (b >>> (8 - BITS))

/-- `Hub75Color::to_rgb8` (src/color.rs lines 153-160). The `u8` left shift
keeps only the low 8 bits, hence the `% 256`. `to_rgb8` does not reference
`MAX_VALUE`, so it evaluates for every `BITS`. -/
def Color.to_rgb8 (BITS : Nat) (c : Color) : Nat × Nat × Nat :=
  if BITS ≥ 8 then (c.r, c.g, c.b)
  else ((c.r <<< (8 - BITS)) % 256, (c.g <<< (8 - BITS)) % 256, (c.b <<< (8 - BITS)) % 256)

/-- `Hub75Color::new` (src/color.rs lines 67-85) with the `u8` const
evaluation of `MAX_VALUE` made explicit: instantiating `new` forces
`MAX_VALUE`, so for `BITS ≥ 8` the function does not compile (modeled as
`none`). -/
def Color.new_checked (BITS r g b : Nat) : Option Color :=
  match Color.MAX_VALUE_checked BITS with
  | none => none
  | some mx => some
      { r := if r > mx then mx else r
        g := if g > mx then mx else g
        b := if b > mx then mx else b }

/-- `Hub75Color::from_rgb8` (src/color.rs lines 143-150) with the `u8` const
evaluation of `MAX_VALUE` made explicit through `Color.new_checked`. -/
def Color.from_rgb8_checked (BITS r g b : Nat) : Option Color :=
  if BITS ≥ 8 then Color.new_checked BITS r g b
  else Color.new_checked BITS (r >>> (8 - BITS)) (g >>> (8 - BITS)) (b >>> (8 - BITS))

/-- Frame buffer of `WIDTH × HEIGHT` colors (src/frame_buffer.rs,
`Hub75FrameBuffer`). The `[[Hub75Color; WIDTH]; HEIGHT]` grid is embedded as
a total function from `(x, y)` to the pixel `pixels[y][x]`; the compile-time
`WIDTH`/`HEIGHT` parameters are passed to each bounds-checked operation. -/
structure FrameBuffer where
  pix : Nat → Nat → Color

/-- `Hub75FrameBuffer::new` (src/frame_buffer.rs lines 17-21): all black. -/
def FrameBuffer.new : FrameBuffer := ⟨fun _ _ => Color.black⟩

/-- `Hub75FrameBuffer::fill` (src/frame_buffer.rs lines 29-35): every pixel of
the grid becomes `color`. -/
def FrameBuffer.fill (_fb : FrameBuffer) (color : Color) : FrameBuffer :=
  ⟨fun _ _ => color⟩

/-- `Hub75FrameBuffer::clear` (src/frame_buffer.rs lines 24-26). -/
def FrameBuffer.clear (fb : FrameBuffer) : FrameBuffer := fb.fill Color.black

/-- The in-bounds write performed through `pixel_mut` (src/frame_buffer.rs
line 47). -/
def FrameBuffer.writePix (fb : FrameBuffer) (x y : Nat) (color : Color) : FrameBuffer :=
  ⟨fun a b => if a = x ∧ b = y then color else fb.pix a b⟩

/-- `Hub75FrameBuffer::set_pixel` via `pixel_mut` (src/frame_buffer.rs
lines 39-49 and 63-71): bounds check, then write. -/
def FrameBuffer.set_pixel (W H : Nat) (fb : FrameBuffer) (x y : Nat) (color : Color) :
    Except Hub75Error FrameBuffer :=
  if x ≥ W ∨ y ≥ H then .error .InvalidCoordinates
  else .ok (fb.writePix x y color)

/-- `Hub75FrameBuffer::get_pixel` via `pixel` (src/frame_buffer.rs
lines 53-59 and 75-77). -/
def FrameBuffer.get_pixel (W H : Nat) (fb : FrameBuffer) (x y : Nat) :
    Except Hub75Error Color :=
  if x ≥ W ∨ y ≥ H then .error .InvalidCoordinates
  else .ok (fb.pix x y)

/-- `Result::unwrap_or`: the value of an `ok`, or the default on `error`. -/
def exceptD {α : Type} (e : Except Hub75Error α) (dflt : α) : α :=
  match e with
  | .ok a => a
  | .error _ => dflt

/-- A Rust `for i in lo..lo+k { ... ? ... }` loop over an `Except`-valued body:
`iterE step lo k s` runs `step` on indices `lo, lo+1, …, lo+k-1`, stopping at
the first error exactly as the `?` operator does. -/
def iterE {σ : Type} (step : σ → Nat → Except Hub75Error σ) : Nat → Nat → σ → Except Hub75Error σ
  | _, 0, s => .ok s
  | i, k+1, s =>
    match step s i with
    | .error e => .error e
    | .ok s2 => iterE step (i+1) k s2

/-- The pure counterpart of `iterE`, used to state loop results. -/
def iterP {σ : Type} (g : σ → Nat → σ) : Nat → Nat → σ → σ
  | _, 0, s => s
  | i, k+1, s => iterP g (i+1) k (g s i)

/-- The list `[f i, f (i+1), …, f (i+k-1)]`, used to state the result of the
row-extraction loop. -/
def mkList {α : Type} (f : Nat → α) : Nat → Nat → List α
  | _, 0 => []
  | i, k+1 => f i :: mkList f (i+1) k

/-- The six booleans `(upper_r, upper_g, upper_b, lower_r, lower_g, lower_b)`
pushed per column by `get_row_bit_plane` (src/frame_buffer.rs lines 169-174). -/
def joinBits : (Bool × Bool × Bool) → (Bool × Bool × Bool) →
    Bool × Bool × Bool × Bool × Bool × Bool
  | (a, b, c), (d, e, f) => (a, b, c, d, e, f)

/-- `Hub75FrameBuffer::get_row_bit_plane` (src/frame_buffer.rs lines 150-178):
row bounds check, plane bounds check, then one `heapless::Vec` push per
column; a push into a full capacity-`WIDTH` vector is mapped to
`BufferOverflow`. -/
def get_row_bit_plane (W H BITS : Nat) (fb : FrameBuffer) (row bit_plane : Nat) :
    Except Hub75Error (List (Bool × Bool × Bool × Bool × Bool × Bool)) :=
  if row ≥ H / 2 then .error .InvalidCoordinates
  else if bit_plane ≥ BITS then .error .InvalidColor
  else
    iterE (fun result x =>
      let upper_pixel := fb.pix x row
      let lower_pixel := fb.pix x (row + H / 2)
      if result.length < W then
        .ok (result ++ [joinBits (upper_pixel.get_bit BITS bit_plane)
                                 (lower_pixel.get_bit BITS bit_plane)])
      else .error .BufferOverflow) 0 W []

/-- Address pins (src/pins.rs, `Hub75AddressPins`): A, B, C always present,
D and E optional. The pin objects themselves carry no data relevant to the
claims and are modeled as `Unit`. -/
structure Hub75AddressPins where
  a : Unit
  b : Unit
  c : Unit
  d : Option Unit
  e : Option Unit

/-- Pin bundle (src/pins.rs, `Hub75Pins`); the RGB sextet and control trio
are modeled as `Unit` since only the address group affects the claims. -/
structure Hub75Pins where
  rgb : Unit
  address : Hub75AddressPins
  control : Unit

/-- `Hub75Pins::init` (src/pins.rs lines 230-256): drives every pin to its
default level. With infallible (mock) pins every `pin_op!` succeeds, so init
returns `Ok(())`. -/
def Hub75Pins.init (_pins : Hub75Pins) : Except Hub75Error Unit := .ok ()

/-- `Hub75Pins::address_pin_count` (src/pins.rs lines 259-268). -/
def Hub75Pins.address_pin_count (pins : Hub75Pins) : Nat :=
  3 + (if pins.address.d.isSome then 1 else 0) + (if pins.address.e.isSome then 1 else 0)

/-- `Hub75Pins::max_addressable_rows` (src/pins.rs lines 271-273). -/
def Hub75Pins.max_addressable_rows (pins : Hub75Pins) : Nat :=
  1 <<< pins.address_pin_count

/-- The mutable state of `Hub75Display` (src/display.rs lines 97-119); the
pin group is dropped from the state since its runtime content is `Unit`.
`brightness` is the `u8` level of the `Brightness` wrapper. -/
structure DisplayState where
  front_buffer : FrameBuffer
  back_buffer : FrameBuffer
  current_row : Nat
  current_bit_plane : Nat
  brightness : Nat
  refresh_interval_ns : Nat
  double_buffering : Bool

/-- `Hub75Display::new` (src/display.rs lines 167-187): run pin init, reject
when `HEIGHT / 2` exceeds the addressable rows, otherwise start with two
black buffers, default brightness 128, base tick 100_000 ns, double
buffering off. -/
def Hub75Display.new (H : Nat) (pins : Hub75Pins) : Except Hub75Error DisplayState :=
  match pins.init with
  | .error e => .error e
  | .ok _ =>
    if H / 2 > pins.max_addressable_rows then .error .InvalidCoordinates
    else .ok
      { front_buffer := FrameBuffer.new
        back_buffer := FrameBuffer.new
        current_row := 0
        current_bit_plane := 0
        brightness := 128
        refresh_interval_ns := 100000
        double_buffering := false }

/-- The buffer returned by `Hub75Display::back_buffer` (src/display.rs
lines 202-208): the back buffer when double buffering is on, else the front
buffer. -/
def DisplayState.active_back (s : DisplayState) : FrameBuffer :=
  if s.double_buffering then s.back_buffer else s.front_buffer

/-- Writing through the `&mut` reference of `Hub75Display::back_buffer`
stores into the same buffer `active_back` reads. -/
def DisplayState.put_back (s : DisplayState) (fb : FrameBuffer) : DisplayState :=
  if s.double_buffering then { s with back_buffer := fb } else { s with front_buffer := fb }

/-- `Hub75Display::clear` (src/display.rs lines 231-236): clear through
`back_buffer()`, and also clear the front buffer when double buffering is
off. -/
def DisplayState.clear (s : DisplayState) : DisplayState :=
  let s1 := s.put_back s.active_back.clear
  if ¬s1.double_buffering then { s1 with front_buffer := s1.front_buffer.clear } else s1

/-- `Hub75Display::set_pixel` (src/display.rs lines 239-246): forwards to
`back_buffer().set_pixel`. -/
def DisplayState.set_pixel (W H : Nat) (s : DisplayState) (x y : Nat) (color : Color) :
    Except Hub75Error DisplayState :=
  match s.active_back.set_pixel W H x y color with
  | .error e => .error e
  | .ok fb => .ok (s.put_back fb)

/-- `Hub75Display::get_pixel` (src/display.rs lines 249-251): reads through
`front_buffer()`, which always returns the front buffer (lines 211-213). -/
def DisplayState.get_pixel (W H : Nat) (s : DisplayState) (x y : Nat) :
    Except Hub75Error Color :=
  s.front_buffer.get_pixel W H x y

/-- `Hub75Display::fill` (src/display.rs lines 254-256): fills through
`back_buffer()`. -/
def DisplayState.fill (s : DisplayState) (color : Color) : DisplayState :=
  s.put_back (s.active_back.fill color)

/-- `Hub75Display::set_refresh_interval_ns` (src/display.rs lines 226-228). -/
def DisplayState.set_refresh_interval_ns (s : DisplayState) (interval_ns : Nat) : DisplayState :=
  { s with refresh_interval_ns := interval_ns }

/-- The per-iteration BCM delay computed inside `Hub75Display::render_frame`
(src/display.rs lines 301-305):
`bit_duration_ns = refresh_interval_ns * (1 << bit_plane)` followed by
`scaled_duration_ns = bit_duration_ns * brightness_factor / 255`, in `u32`
arithmetic (wrap-around modeled by `% 2^32`). -/
def bcm_delay_ns (refresh_interval_ns brightness bit_plane : Nat) : Nat :=
  let bit_duration_ns := refresh_interval_ns * (1 <<< bit_plane) % 4294967296
  bit_duration_ns * brightness % 4294967296 / 255

/-- The spec's BCM timing law `Δ(p) = base_tick · 2^p · brightness / 255`,
stated from the spec's words and evaluated in exact unsigned 32-bit integer
arithmetic with integer division, as claim C1 prescribes. -/
def spec_bcm_delta (base_tick brightness p : Nat) : Nat :=
  base_tick * 2 ^ p % 4294967296 * brightness % 4294967296 / 255

/-- The frame-count computation of `Hub75Display::display_frame`
(src/display.rs lines 343-344):
`frame_duration_ns = refresh_interval_ns * (1 << (COLOR_BITS - 1))` and
`num_frames = duration_ns / frame_duration_ns`, with no guard on the
divisor. A zero divisor panics in Rust (`u32` division by zero) and is
modeled as `none`. -/
def display_frame_num_frames (COLOR_BITS : Nat) (s : DisplayState) (duration_ns : Nat) :
    Option Nat :=
  let frame_duration_ns := s.refresh_interval_ns * (1 <<< (COLOR_BITS - 1)) % 4294967296
  if frame_duration_ns = 0 then none
  else some (duration_ns / frame_duration_ns)

/-- Animation effects (src/animation.rs lines 80-89). -/
inductive AnimationEffect where
  | None
  | Slide
  | Fade
  | Wipe
deriving DecidableEq

/-- `AnimationEffect::total_steps` (src/animation.rs lines 109-116). -/
def AnimationEffect.total_steps (effect : AnimationEffect) (W frame_count : Nat) : Nat :=
  match effect with
  | .None => frame_count
  | .Slide => frame_count * W
  | .Fade => frame_count * 16
  | .Wipe => frame_count * W

/-- `AnimationEffect::apply_slide_effect` (src/animation.rs lines 121-144):
column `x` of the output is `current[x+sequence]` while `x+sequence < W`,
else `next[x+sequence-W]`, each read with `.unwrap_or(black)`; a missing
next frame is replaced by a fresh (black) buffer. -/
def apply_slide_effect (W H : Nat) (current_frame : FrameBuffer)
    (next_frame : Option FrameBuffer) (sequence : Nat) : Except Hub75Error FrameBuffer :=
  let next := next_frame.getD FrameBuffer.new
  iterE (fun result y =>
    iterE (fun result2 x =>
      let pixel :=
        if x + sequence < W then
          exceptD (current_frame.get_pixel W H (x + sequence) y) Color.black
        else
          exceptD (next.get_pixel W H (x + sequence - W) y) Color.black
      result2.set_pixel W H x y pixel) 0 W result) 0 H FrameBuffer.new

/-- `AnimationEffect::apply_fade_effect` (src/animation.rs lines 147-171):
`fade_factor = sequence` for `sequence < 8` else `15 - sequence`; each
channel is multiplied by `fade_factor as u8` in `u8` arithmetic (the cast
and the wrap-around are the two `% 256`) and divided by 15, then passed
through `Color::new`. -/
def apply_fade_effect (W H BITS : Nat) (current_frame : FrameBuffer) (sequence : Nat) :
    Except Hub75Error FrameBuffer :=
  let fade_factor := if sequence < 8 then sequence else 15 - sequence
  iterE (fun result y =>
    iterE (fun result2 x =>
      match current_frame.get_pixel W H x y with
      | .error e => .error e
      | .ok original =>
        result2.set_pixel W H x y (Color.new BITS
          (original.r * (fade_factor % 256) % 256 / 15)
          (original.g * (fade_factor % 256) % 256 / 15)
          (original.b * (fade_factor % 256) % 256 / 15))) 0 W result) 0 H FrameBuffer.new

/-- `AnimationEffect::apply_wipe_effect` (src/animation.rs lines 174-190):
columns `0..=sequence` are copied from the current frame, the rest stay
black. -/
def apply_wipe_effect (W H : Nat) (current_frame : FrameBuffer) (sequence : Nat) :
    Except Hub75Error FrameBuffer :=
  iterE (fun result y =>
    iterE (fun result2 x =>
      if x ≤ sequence then
        match current_frame.get_pixel W H x y with
        | .error e => .error e
        | .ok pixel => result2.set_pixel W H x y pixel
      else .ok result2) 0 W result) 0 H FrameBuffer.new

/-- `AnimationEffect::apply_effect` (src/animation.rs lines 94-107). -/
def AnimationEffect.apply_effect (effect : AnimationEffect) (W H BITS : Nat)
    (current_frame : FrameBuffer) (next_frame : Option FrameBuffer)
    (progress _total_steps : Nat) : Except Hub75Error FrameBuffer :=
  match effect with
  | .None => .ok current_frame
  | .Slide => apply_slide_effect W H current_frame next_frame progress
  | .Fade => apply_fade_effect W H BITS current_frame progress
  | .Wipe => apply_wipe_effect W H current_frame progress

/-- `AnimationState` (src/animation.rs lines 196-203). -/
inductive AnimationState where
  | Wait
  | Apply (frame : FrameBuffer)
  | Done

/-- `AnimationData::get_frame` for the `Frames` data source
(src/animation.rs lines 232-239): clone the frame at `index`, or
`InvalidData` when out of range. -/
def get_frame (frames : List FrameBuffer) (index : Nat) : Except Hub75Error FrameBuffer :=
  if h : index < frames.length then .ok frames[index]
  else .error (.animation .InvalidData)

/-- `Animation` controller state (src/animation.rs lines 301-318), with the
`AnimationData::Frames` data source embedded as a list of frame buffers. -/
structure Animation where
  frames : List FrameBuffer
  frame_index : Nat
  sequence : Nat
  step : Nat
  total_steps : Nat
  effect : AnimationEffect
  frames_per_step : Nat
  frame_counter : Nat

/-- `Animation::new` (src/animation.rs lines 324-351): reject empty data,
compute `total_steps` from the effect and
`frames_per_step = total_frames / total_steps.max(1)`. -/
def Animation.new (W : Nat) (frames : List FrameBuffer) (effect : AnimationEffect)
    (total_frames : Nat) : Except AnimationError Animation :=
  let frame_count := frames.length
  if frame_count = 0 then .error .InvalidData
  else
    let total := effect.total_steps W frame_count
    .ok
      { frames := frames
        frame_index := 0
        sequence := 0
        step := 0
        total_steps := total
        effect := effect
        frames_per_step := total_frames / max total 1
        frame_counter := 0 }

/-- `Animation::generate_current_frame` (src/animation.rs lines 380-397). -/
def Animation.generate_current_frame (W H BITS : Nat) (a : Animation) :
    Except Hub75Error FrameBuffer :=
  match get_frame a.frames a.frame_index with
  | .error e => .error e
  | .ok current_frame =>
    match (if a.frame_index + 1 < a.frames.length then
             match get_frame a.frames (a.frame_index + 1) with
             | .error e => .error e
             | .ok f => .ok (some f)
           else .ok Option.none : Except Hub75Error (Option FrameBuffer)) with
    | .error e => .error e
    | .ok next_frame =>
      a.effect.apply_effect W H BITS current_frame next_frame a.sequence a.total_steps

/-- `Animation::advance_step` (src/animation.rs lines 400-429). -/
def Animation.advance_step (W : Nat) (a : Animation) : Animation :=
  let a1 := { a with step := a.step + 1 }
  match a1.effect with
  | .None => { a1 with frame_index := a1.step }
  | .Slide =>
    let a2 := { a1 with sequence := a1.sequence + 1 }
    if a2.sequence ≥ W then { a2 with sequence := 0, frame_index := a2.frame_index + 1 }
    else a2
  | .Fade =>
    let a2 := { a1 with sequence := a1.sequence + 1 }
    if a2.sequence ≥ 16 then { a2 with sequence := 0, frame_index := a2.frame_index + 1 }
    else a2
  | .Wipe =>
    let a2 := { a1 with sequence := a1.sequence + 1 }
    if a2.sequence ≥ W then { a2 with sequence := 0, frame_index := a2.frame_index + 1 }
    else a2

/-- `Animation::next` (src/animation.rs lines 354-377). -/
def Animation.next (W H BITS : Nat) (a : Animation) : AnimationState × Animation :=
  if a.step ≥ a.total_steps then (.Done, a)
  else
    let a1 := { a with frame_counter := a.frame_counter + 1 }
    if a1.frame_counter < a1.frames_per_step then (.Wait, a1)
    else
      let a2 := { a1 with frame_counter := 0 }
      match a2.generate_current_frame W H BITS with
      | .error _ => (.Done, a2)
      | .ok frame => (.Apply frame, a2.advance_step W)

/-- The result of the `n`-th `next()` call (0-indexed) starting from `a`,
together with the controller state after it. -/
def runAnim (W H BITS : Nat) (a : Animation) : Nat → AnimationState × Animation
  | 0 => a.next W H BITS
  | n+1 => runAnim W H BITS (a.next W H BITS).2 n

/-- The pixel value the slide effect writes at `(x, y)`: the source column is
`x + s` read from the current frame while in range, else `x + s - W` read
from the next frame. -/
def slidePixel (W H : Nat) (cur next : FrameBuffer) (s x y : Nat) : Color :=
  if x + s < W then exceptD (cur.get_pixel W H (x + s) y) Color.black
  else exceptD (next.get_pixel W H (x + s - W) y) Color.black

/-- Invariant of the `Animation` controller after `k` productive `next()`
calls when `frames_per_step` is zero: the step counter equals `k` and the
effect-specific cursor `(frame_index, sequence)` is the radix decomposition
of `k`. -/
def AnimInv (W : Nat) (frames : List FrameBuffer) (effect : AnimationEffect) (ts : Nat)
    (a : Animation) (k : Nat) : Prop :=
  a.frames = frames ∧ a.effect = effect ∧ a.total_steps = ts ∧ a.frames_per_step = 0 ∧
  a.frame_counter = 0 ∧ a.step = k ∧
  (match effect with
   | .None => a.frame_index = k
   | .Slide => k = a.frame_index * W + a.sequence ∧ a.sequence < W
   | .Fade => k = a.frame_index * 16 + a.sequence ∧ a.sequence < 16
   | .Wipe => k = a.frame_index * W + a.sequence ∧ a.sequence < W)

/-! ## Helper lemmas -/

theorem exceptD_ok {α : Type} (v d : α) : exceptD (.ok v) d = v := rfl

theorem get_pixel_ok (W H : Nat) (fb : FrameBuffer) (x y : Nat) (hx : x < W) (hy : y < H) :
    fb.get_pixel W H x y = .ok (fb.pix x y) := by
  unfold FrameBuffer.get_pixel
  rw [if_neg (by omega)]

theorem set_pixel_ok (W H : Nat) (fb : FrameBuffer) (x y : Nat) (c : Color)
    (hx : x < W) (hy : y < H) :
    fb.set_pixel W H x y c = .ok (fb.writePix x y c) := by
  unfold FrameBuffer.set_pixel
  rw [if_neg (by omega)]

theorem iterE_zero {σ : Type} (step : σ → Nat → Except Hub75Error σ) (i : Nat) (s : σ) :
    iterE step i 0 s = .ok s := rfl

theorem iterE_succ {σ : Type} (step : σ → Nat → Except Hub75Error σ) (i k : Nat) (s : σ) :
    iterE step i (k+1) s =
      match step s i with
      | .error e => .error e
      | .ok s2 => iterE step (i+1) k s2 := rfl

theorem iterP_zero {σ : Type} (g : σ → Nat → σ) (i : Nat) (s : σ) : iterP g i 0 s = s := rfl

theorem iterP_succ {σ : Type} (g : σ → Nat → σ) (i k : Nat) (s : σ) :
    iterP g i (k+1) s = iterP g (i+1) k (g s i) := rfl

theorem iterE_eq_iterP {σ : Type} (step : σ → Nat → Except Hub75Error σ) (g : σ → Nat → σ)
    (k : Nat) : ∀ (i : Nat) (s : σ),
    (∀ s' j, i ≤ j → j < i + k → step s' j = .ok (g s' j)) →
    iterE step i k s = .ok (iterP g i k s) := by
  induction k with
  | zero => intro i s _; rfl
  | succ n ih =>
    intro i s h
    have hstep : step s i = .ok (g s i) := h s i (Nat.le_refl i) (by omega)
    rw [iterE_succ, hstep, iterP_succ]
    exact ih (i+1) (g s i) (fun s' j hj1 hj2 => h s' j (by omega) (by omega))

theorem iterE_isOk {σ : Type} (step : σ → Nat → Except Hub75Error σ) (k : Nat) :
    ∀ (i : Nat) (s : σ),
    (∀ s' j, i ≤ j → j < i + k → ∃ s2, step s' j = .ok s2) →
    ∃ sres, iterE step i k s = .ok sres := by
  induction k with
  | zero => intro i s _; exact ⟨s, rfl⟩
  | succ n ih =>
    intro i s h
    obtain ⟨s2, hs2⟩ := h s i (Nat.le_refl i) (by omega)
    rw [iterE_succ, hs2]
    exact ih (i+1) s2 (fun s' j hj1 hj2 => h s' j (by omega) (by omega))

theorem iterP_row_pix (y : Nat) (f : Nat → Color) (k : Nat) :
    ∀ (i : Nat) (fb : FrameBuffer) (a b : Nat),
    (iterP (fun fb2 x => fb2.writePix x y (f x)) i k fb).pix a b =
      if i ≤ a ∧ a < i + k ∧ b = y then f a else fb.pix a b := by
  induction k with
  | zero =>
    intro i fb a b
    rw [iterP_zero, if_neg (by omega)]
  | succ n ih =>
    intro i fb a b
    rw [iterP_succ, ih (i+1) (fb.writePix i y (f i)) a b]
    by_cases hcase : i + 1 ≤ a ∧ a < i + 1 + n ∧ b = y
    · rw [if_pos hcase, if_pos (by omega)]
    · rw [if_neg hcase]
      simp only [FrameBuffer.writePix]
      by_cases h2 : a = i ∧ b = y
      · rw [if_pos h2, if_pos (by omega), h2.1]
      · rw [if_neg h2, if_neg (by omega)]

theorem iterP_grid_pix (W : Nat) (f : Nat → Nat → Color) (m : Nat) :
    ∀ (j : Nat) (fb : FrameBuffer) (a b : Nat),
    (iterP (fun fb2 y => iterP (fun fb3 x => fb3.writePix x y (f x y)) 0 W fb2) j m fb).pix a b =
      if a < W ∧ j ≤ b ∧ b < j + m then f a b else fb.pix a b := by
  induction m with
  | zero =>
    intro j fb a b
    rw [iterP_zero, if_neg (by omega)]
  | succ n ih =>
    intro j fb a b
    rw [iterP_succ, ih (j+1) _ a b]
    by_cases hcase : a < W ∧ j + 1 ≤ b ∧ b < j + 1 + n
    · rw [if_pos hcase, if_pos (by omega)]
    · rw [if_neg hcase, iterP_row_pix j (fun x => f x j) W 0 fb a b]
      by_cases h2 : 0 ≤ a ∧ a < 0 + W ∧ b = j
      · rw [if_pos h2, if_pos (by omega), h2.2.2]
      · rw [if_neg h2, if_neg (by omega)]

theorem mkList_length {α : Type} (f : Nat → α) (k : Nat) : ∀ i, (mkList f i k).length = k := by
  induction k with
  | zero => intro i; rfl
  | succ n ih => intro i; simp [mkList, ih (i+1)]

theorem mkList_getElem? {α : Type} (f : Nat → α) (k : Nat) :
    ∀ i x, x < k → (mkList f i k)[x]? = some (f (i + x)) := by
  induction k with
  | zero => intro i x hx; omega
  | succ n ih =>
    intro i x hx
    match x with
    | 0 => simp [mkList]
    | Nat.succ m =>
      rw [show mkList f i (n+1) = f i :: mkList f (i+1) n from rfl]
      rw [List.getElem?_cons_succ, ih (i+1) m (by omega)]
      have harg : i + 1 + m = i + Nat.succ m := by omega
      rw [harg]

theorem rowPush_eq {α : Type} (W : Nat) (elem : Nat → α)
    (push : List α → Nat → Except Hub75Error (List α))
    (hpush : ∀ acc x, push acc x =
      if acc.length < W then .ok (acc ++ [elem x]) else .error .BufferOverflow)
    (k : Nat) : ∀ (i : Nat) (acc : List α), acc.length + k ≤ W →
    iterE push i k acc = .ok (acc ++ mkList elem i k) := by
  induction k with
  | zero => intro i acc _; simp [iterE_zero, mkList]
  | succ n ih =>
    intro i acc h
    rw [iterE_succ, hpush, if_pos (by omega)]
    rw [show (acc ++ mkList elem i (n+1)) = ((acc ++ [elem i]) ++ mkList elem (i+1) n) from
      by simp [mkList]]
    exact ih (i+1) (acc ++ [elem i]) (by simp; omega)

/-! ## Claim theorems -/

/-- C7: every `Color` construction path — `new`, `from_rgb8` and the named
helpers `black`/`white`/`red`/`green`/`blue` — yields channels at most
`MAX_VALUE BITS = (1 <<< BITS) - 1`, and `new` saturates out-of-range inputs
to that maximum. Colors are immutable after construction, so every color in
the system satisfies the invariant. -/
theorem c7_color_invariant (BITS r g b : Nat) :
    ((Color.new BITS r g b).r ≤ Color.MAX_VALUE BITS ∧
     (Color.new BITS r g b).g ≤ Color.MAX_VALUE BITS ∧
     (Color.new BITS r g b).b ≤ Color.MAX_VALUE BITS) ∧
    (r > Color.MAX_VALUE BITS → (Color.new BITS r g b).r = Color.MAX_VALUE BITS) ∧
    (g > Color.MAX_VALUE BITS → (Color.new BITS r g b).g = Color.MAX_VALUE BITS) ∧
    (b > Color.MAX_VALUE BITS → (Color.new BITS r g b).b = Color.MAX_VALUE BITS) ∧
    ((Color.from_rgb8 BITS r g b).r ≤ Color.MAX_VALUE BITS ∧
     (Color.from_rgb8 BITS r g b).g ≤ Color.MAX_VALUE BITS ∧
     (Color.from_rgb8 BITS r g b).b ≤ Color.MAX_VALUE BITS) ∧
    (Color.black.r ≤ Color.MAX_VALUE BITS ∧ Color.black.g ≤ Color.MAX_VALUE BITS ∧
     Color.black.b ≤ Color.MAX_VALUE BITS) ∧
    ((Color.white BITS).r ≤ Color.MAX_VALUE BITS ∧ (Color.white BITS).g ≤ Color.MAX_VALUE BITS ∧
     (Color.white BITS).b ≤ Color.MAX_VALUE BITS) ∧
    ((Color.red BITS).r ≤ Color.MAX_VALUE BITS ∧ (Color.red BITS).g ≤ Color.MAX_VALUE BITS ∧
     (Color.red BITS).b ≤ Color.MAX_VALUE BITS) ∧
    ((Color.green BITS).r ≤ Color.MAX_VALUE BITS ∧ (Color.green BITS).g ≤ Color.MAX_VALUE BITS ∧
     (Color.green BITS).b ≤ Color.MAX_VALUE BITS) ∧
    ((Color.blue BITS).r ≤ Color.MAX_VALUE BITS ∧ (Color.blue BITS).g ≤ Color.MAX_VALUE BITS ∧
     (Color.blue BITS).b ≤ Color.MAX_VALUE BITS) := by
  have hnew : ∀ u v w : Nat,
      (Color.new BITS u v w).r ≤ Color.MAX_VALUE BITS ∧
      (Color.new BITS u v w).g ≤ Color.MAX_VALUE BITS ∧
      (Color.new BITS u v w).b ≤ Color.MAX_VALUE BITS := by
    intro u v w
    unfold Color.new
    refine ⟨?_, ?_, ?_⟩ <;> dsimp only <;> split <;> omega
  refine ⟨hnew r g b, ?_, ?_, ?_, ?_, ?_, ?_, ?_, ?_, ?_⟩
  · intro h; unfold Color.new; dsimp only; rw [if_pos h]
  · intro h; unfold Color.new; dsimp only; rw [if_pos h]
  · intro h; unfold Color.new; dsimp only; rw [if_pos h]
  · unfold Color.from_rgb8; split
    · exact hnew r g b
    · exact hnew _ _ _
  · exact ⟨Nat.zero_le _, Nat.zero_le _, Nat.zero_le _⟩
  · exact ⟨Nat.le_refl _, Nat.le_refl _, Nat.le_refl _⟩
  · exact ⟨Nat.le_refl _, Nat.zero_le _, Nat.zero_le _⟩
  · exact ⟨Nat.zero_le _, Nat.le_refl _, Nat.zero_le _⟩
  · exact ⟨Nat.zero_le _, Nat.zero_le _, Nat.le_refl _⟩

/-- Witness for C7 at a concrete input: 4-bit color saturates 255 to 15. -/
theorem c7_color_invariant_witness : (Color.new 4 255 0 0).r = Color.MAX_VALUE 4 :=
  (c7_color_invariant 4 255 0 0).2.1 (by decide)

/-- C8: for every 8-bit value `x` and every `BITS < 8`, the round trip
`from_rgb8 (x,x,x)` then `to_rgb8` returns `x &&& mask` on each channel,
with `mask = (0xFF <<< (8 - BITS)) &&& 0xFF` (and on this compilable domain
the checked conversion agrees with the total model). For `BITS ≥ 8` only
`to_rgb8` is the identity: `from_rgb8` forces `MAX_VALUE = (1u8 << BITS) - 1`,
whose const evaluation overflows — a hard error — so the claimed identity
round trip is not a behavior of the program (modeled as `none`), even though
the source's own doc example instantiates `Hub75Color<8>`. -/
theorem c8_rgb8_roundtrip (BITS x : Nat) :
    (BITS < 8 → x < 256 →
      Color.to_rgb8 BITS (Color.from_rgb8 BITS x x x) =
        (x &&& ((255 <<< (8 - BITS)) &&& 255), x &&& ((255 <<< (8 - BITS)) &&& 255),
         x &&& ((255 <<< (8 - BITS)) &&& 255))) ∧
    (BITS < 8 → Color.from_rgb8_checked BITS x x x = some (Color.from_rgb8 BITS x x x)) ∧
    (8 ≤ BITS → x < 256 → Color.to_rgb8 BITS ⟨x, x, x⟩ = (x, x, x)) ∧
    (8 ≤ BITS → Color.from_rgb8_checked BITS x x x = none) := by
  refine ⟨?_, ?_, ?_, ?_⟩
  · intro hB hx
    exact (by decide :
      ∀ B, B < 8 → ∀ y, y < 256 →
        Color.to_rgb8 B (Color.from_rgb8 B y y y) =
          (y &&& ((255 <<< (8 - B)) &&& 255), y &&& ((255 <<< (8 - B)) &&& 255),
           y &&& ((255 <<< (8 - B)) &&& 255))) BITS hB x hx
  · intro hB
    have h8 : ¬ (BITS ≥ 8) := by omega
    simp only [Color.from_rgb8_checked, Color.from_rgb8, Color.new_checked,
      Color.MAX_VALUE_checked, Color.new, Color.MAX_VALUE, if_neg h8, if_pos hB]
  · intro hB _
    unfold Color.to_rgb8
    rw [if_pos hB]
  · intro hB
    unfold Color.from_rgb8_checked Color.new_checked Color.MAX_VALUE_checked
    rw [if_pos hB, if_neg (by omega)]

/-- Witness for C8 at a concrete input: BITS = 4, x = 201. -/
theorem c8_rgb8_roundtrip_witness :
    Color.to_rgb8 4 (Color.from_rgb8 4 201 201 201) =
      (201 &&& ((255 <<< 4) &&& 255), 201 &&& ((255 <<< 4) &&& 255),
       201 &&& ((255 <<< 4) &&& 255)) ∧
    Color.from_rgb8_checked 8 255 255 255 = none :=
  ⟨(c8_rgb8_roundtrip 4 201).1 (by decide) (by decide),
   (c8_rgb8_roundtrip 8 255).2.2.2 (by decide)⟩

/-- C1 (amended): the per-plane delay computed by `render_frame` equals the
spec's timing law `Δ(p) = base_tick · 2^p · brightness / 255` evaluated in
exact unsigned 32-bit arithmetic, for every brightness and base tick. The
doubling identity `Δ(p+1) = 2·Δ(p)` does not hold in general: absent 32-bit
overflow it holds only up to the rounding of the division by 255
(`2·Δ(p) ≤ Δ(p+1) ≤ 2·Δ(p) + 1`), with exact equality when 255 divides
`base_tick · 2^p · brightness` (for instance at brightness 255). -/
theorem c1_bcm_timing (base_tick brightness p : Nat) :
    bcm_delay_ns base_tick brightness p = spec_bcm_delta base_tick brightness p ∧
    (base_tick * 2 ^ (p+1) < 4294967296 → base_tick * 2 ^ (p+1) * brightness < 4294967296 →
      (2 * bcm_delay_ns base_tick brightness p ≤ bcm_delay_ns base_tick brightness (p+1) ∧
       bcm_delay_ns base_tick brightness (p+1) ≤ 2 * bcm_delay_ns base_tick brightness p + 1) ∧
      (255 ∣ base_tick * 2 ^ p * brightness →
        bcm_delay_ns base_tick brightness (p+1) = 2 * bcm_delay_ns base_tick brightness p)) := by
  constructor
  · simp only [bcm_delay_ns, spec_bcm_delta, Nat.one_shiftLeft]
  · intro h1 h2
    have hle : base_tick * 2 ^ p ≤ base_tick * 2 ^ (p+1) :=
      Nat.mul_le_mul_left base_tick (Nat.pow_le_pow_right (by omega) (by omega))
    have e1 : base_tick * 2 ^ p < 4294967296 := lt_of_le_of_lt hle h1
    have e2 : base_tick * 2 ^ p * brightness < 4294967296 :=
      lt_of_le_of_lt (Nat.mul_le_mul_right brightness hle) h2
    have d0 : bcm_delay_ns base_tick brightness p = base_tick * 2 ^ p * brightness / 255 := by
      simp only [bcm_delay_ns, Nat.one_shiftLeft]
      rw [Nat.mod_eq_of_lt e1, Nat.mod_eq_of_lt e2]
    have d1 : bcm_delay_ns base_tick brightness (p+1) =
        base_tick * 2 ^ (p+1) * brightness / 255 := by
      simp only [bcm_delay_ns, Nat.one_shiftLeft]
      rw [Nat.mod_eq_of_lt h1, Nat.mod_eq_of_lt h2]
    have key : base_tick * 2 ^ (p+1) * brightness = 2 * (base_tick * 2 ^ p * brightness) := by
      ring
    rw [d0, d1, key]
    refine ⟨⟨?_, ?_⟩, ?_⟩ <;> omega

/-- Counterexample to C1 as stated: at base tick 1 and brightness 128 (with
any BITS ≥ 2, planes 0 and 1) the doubling identity fails —
`Δ(0) = 128/255 = 0` but `Δ(1) = 256/255 = 1 ≠ 0`. -/
theorem c1_bcm_counterexample :
    bcm_delay_ns 1 128 1 ≠ 2 * bcm_delay_ns 1 128 0 := by decide

/-- Witness for C1 at a concrete input: base tick 100000 ns, brightness 255,
planes 0 and 1 double exactly. -/
theorem c1_bcm_timing_witness :
    bcm_delay_ns 100000 255 1 = 2 * bcm_delay_ns 100000 255 0 :=
  ((c1_bcm_timing 100000 255 0).2 (by decide) (by decide)).2 (by decide)

/-- C9: `display_frame` divides the requested duration by
`refresh_interval_ns * 2^(COLOR_BITS-1)` with no guard on the divisor; after
`set_refresh_interval_ns 0` — a value the public interface accepts — the
divisor is 0 and the `u32` division panics (modeled as `none`), so the
operation is not total over reachable states. -/
theorem c9_display_frame_div_by_zero (COLOR_BITS : Nat) (s : DisplayState) (duration_ns : Nat) :
    (s.refresh_interval_ns * (1 <<< (COLOR_BITS - 1)) % 4294967296 ≠ 0 →
      display_frame_num_frames COLOR_BITS s duration_ns =
        some (duration_ns / (s.refresh_interval_ns * (1 <<< (COLOR_BITS - 1)) % 4294967296))) ∧
    display_frame_num_frames COLOR_BITS (s.set_refresh_interval_ns 0) duration_ns = none := by
  constructor
  · intro h
    simp only [display_frame_num_frames]
    rw [if_neg h]
  · simp only [display_frame_num_frames, DisplayState.set_refresh_interval_ns]
    rw [if_pos (by simp)]

/-- Witness for C9 at a concrete input: the default 100000 ns base tick with
6-bit color gives a nonzero divisor. -/
theorem c9_display_frame_div_by_zero_witness :
    display_frame_num_frames 6
      { front_buffer := FrameBuffer.new, back_buffer := FrameBuffer.new, current_row := 0,
        current_bit_plane := 0, brightness := 128, refresh_interval_ns := 100000,
        double_buffering := false } 1000000 =
      some (1000000 / (100000 * (1 <<< 5) % 4294967296)) :=
  (c9_display_frame_div_by_zero 6
    { front_buffer := FrameBuffer.new, back_buffer := FrameBuffer.new, current_row := 0,
      current_bit_plane := 0, brightness := 128, refresh_interval_ns := 100000,
      double_buffering := false } 1000000).1 (by decide)

/-- C6: with pin init succeeding, constructing the display fails with
`InvalidCoordinates` exactly when `HEIGHT / 2` exceeds
`2 ^ address_pin_count`, where the pin count is 3 plus one for each present
optional pin D, E. -/
theorem c6_display_new (H : Nat) (pins : Hub75Pins) :
    (H / 2 > 2 ^ pins.address_pin_count → Hub75Display.new H pins = .error .InvalidCoordinates) ∧
    (H / 2 ≤ 2 ^ pins.address_pin_count → ∃ s, Hub75Display.new H pins = .ok s) := by
  have hrows : pins.max_addressable_rows = 2 ^ pins.address_pin_count := by
    simp only [Hub75Pins.max_addressable_rows, Nat.one_shiftLeft]
  constructor
  · intro h
    simp only [Hub75Display.new, Hub75Pins.init]
    rw [if_pos (by omega)]
  · intro h
    simp only [Hub75Display.new, Hub75Pins.init]
    rw [if_neg (by omega)]
    exact ⟨_, rfl⟩

/-- Witness for C6 at a concrete input: 3 address pins cannot address the 16
row pairs of a 32-row panel (spec scenario S4). -/
theorem c6_display_new_witness :
    Hub75Display.new 32
      { rgb := (), address := { a := (), b := (), c := (), d := none, e := none },
        control := () } = .error .InvalidCoordinates :=
  (c6_display_new 32
    { rgb := (), address := { a := (), b := (), c := (), d := none, e := none },
      control := () }).1 (by decide)

/-- C2: `get_row_bit_plane` rejects `row ≥ H/2` with `InvalidCoordinates`
(this check runs first), rejects `bit_plane ≥ BITS` with `InvalidColor`, and
for valid `(row, plane)` returns a sequence of length exactly `W` whose
`x`-th element's first three booleans are `px(x,row).get_bit(p)` and last
three are `px(x,row+H/2).get_bit(p)`. -/
theorem c2_get_row_bit_plane (W H BITS : Nat) (fb : FrameBuffer) (row p : Nat) :
    (row ≥ H / 2 → get_row_bit_plane W H BITS fb row p = .error .InvalidCoordinates) ∧
    (row < H / 2 → p ≥ BITS → get_row_bit_plane W H BITS fb row p = .error .InvalidColor) ∧
    (row < H / 2 → p < BITS →
      ∃ l, get_row_bit_plane W H BITS fb row p = .ok l ∧ l.length = W ∧
        ∀ x, x < W → l[x]? = some (joinBits ((fb.pix x row).get_bit BITS p)
          ((fb.pix x (row + H / 2)).get_bit BITS p))) := by
  refine ⟨?_, ?_, ?_⟩
  · intro h
    unfold get_row_bit_plane
    rw [if_pos h]
  · intro h1 h2
    unfold get_row_bit_plane
    rw [if_neg (by omega), if_pos h2]
  · intro h1 h2
    refine ⟨mkList (fun x => joinBits ((fb.pix x row).get_bit BITS p)
      ((fb.pix x (row + H / 2)).get_bit BITS p)) 0 W, ?_, ?_, ?_⟩
    · unfold get_row_bit_plane
      rw [if_neg (by omega), if_neg (by omega)]
      have := rowPush_eq W (fun x => joinBits ((fb.pix x row).get_bit BITS p)
          ((fb.pix x (row + H / 2)).get_bit BITS p))
        (fun result x =>
          if result.length < W then
            .ok (result ++ [joinBits ((fb.pix x row).get_bit BITS p)
              ((fb.pix x (row + H / 2)).get_bit BITS p)])
          else .error .BufferOverflow)
        (fun _ _ => rfl) W 0 [] (by simp)
      simpa using this
    · rw [mkList_length]
    · intro x hx
      rw [mkList_getElem? _ W 0 x hx]
      simp

/-- Witness for C2 at a concrete input: a 2-wide, 2-high, 1-bit buffer with
`row = 1 ≥ H/2` is rejected with `InvalidCoordinates`. -/
theorem c2_get_row_bit_plane_witness :
    get_row_bit_plane 2 2 1 FrameBuffer.new 1 0 = .error .InvalidCoordinates :=
  (c2_get_row_bit_plane 2 2 1 FrameBuffer.new 1 0).1 (by decide)

/-- Counterexample to C3 as stated: with double buffering enabled,
`set_pixel(0, 0, (1,0,0))` writes the back buffer but `get_pixel(0, 0)`
reads the front buffer, returning the unchanged black pixel rather than the
written color. -/
theorem c3_counterexample :
    ∃ s1, DisplayState.set_pixel 1 1
        { front_buffer := FrameBuffer.new, back_buffer := FrameBuffer.new, current_row := 0,
          current_bit_plane := 0, brightness := 128, refresh_interval_ns := 100000,
          double_buffering := true } 0 0 ⟨1, 0, 0⟩ = .ok s1 ∧
      DisplayState.get_pixel 1 1 s1 0 0 = .ok ⟨0, 0, 0⟩ ∧
      (⟨0, 0, 0⟩ : Color) ≠ ⟨1, 0, 0⟩ :=
  ⟨_, rfl, rfl, by decide⟩

/-- C3 (amended): `clear()`, `fill(c)` and `set_pixel` forward to the back
buffer when double buffering is enabled and to the front buffer when it is
disabled, but `get_pixel` always reads the front buffer; hence with double
buffering off `get_pixel(x,y)` after `set_pixel(x,y,c)` returns `c`, while
with double buffering on it returns the front buffer's unchanged pixel. -/
theorem c3_buffer_forwarding (W H : Nat) (s : DisplayState) (x y : Nat) (c : Color) :
    (s.double_buffering = true →
      (s.fill c).back_buffer = s.back_buffer.fill c ∧
      (s.fill c).front_buffer = s.front_buffer ∧
      s.clear.back_buffer = s.back_buffer.clear ∧
      s.clear.front_buffer = s.front_buffer ∧
      (x < W → y < H →
        DisplayState.set_pixel W H s x y c =
          .ok { s with back_buffer := s.back_buffer.writePix x y c } ∧
        DisplayState.get_pixel W H { s with back_buffer := s.back_buffer.writePix x y c } x y =
          s.front_buffer.get_pixel W H x y)) ∧
    (s.double_buffering = false →
      (s.fill c).front_buffer = s.front_buffer.fill c ∧
      (s.fill c).back_buffer = s.back_buffer ∧
      s.clear.front_buffer = s.front_buffer.clear ∧
      s.clear.back_buffer = s.back_buffer ∧
      (x < W → y < H →
        DisplayState.set_pixel W H s x y c =
          .ok { s with front_buffer := s.front_buffer.writePix x y c } ∧
        DisplayState.get_pixel W H { s with front_buffer := s.front_buffer.writePix x y c } x y =
          .ok c)) := by
  constructor
  · intro hdb
    refine ⟨?_, ?_, ?_, ?_, ?_⟩
    · simp [DisplayState.fill, DisplayState.put_back, DisplayState.active_back, hdb]
    · simp [DisplayState.fill, DisplayState.put_back, DisplayState.active_back, hdb]
    · simp [DisplayState.clear, DisplayState.put_back, DisplayState.active_back, hdb]
    · simp [DisplayState.clear, DisplayState.put_back, DisplayState.active_back, hdb]
    · intro hx hy
      constructor
      · simp only [DisplayState.set_pixel, DisplayState.active_back, DisplayState.put_back, hdb,
          if_pos, set_pixel_ok W H s.back_buffer x y c hx hy]
      · simp only [DisplayState.get_pixel]
  · intro hdb
    refine ⟨?_, ?_, ?_, ?_, ?_⟩
    · simp [DisplayState.fill, DisplayState.put_back, DisplayState.active_back, hdb]
    · simp [DisplayState.fill, DisplayState.put_back, DisplayState.active_back, hdb]
    · simp [DisplayState.clear, DisplayState.put_back, DisplayState.active_back, hdb,
        FrameBuffer.clear, FrameBuffer.fill]
    · simp [DisplayState.clear, DisplayState.put_back, DisplayState.active_back, hdb]
    · intro hx hy
      constructor
      · unfold DisplayState.set_pixel DisplayState.active_back DisplayState.put_back
        simp only [hdb, Bool.false_eq_true, if_false]
        rw [set_pixel_ok W H s.front_buffer x y c hx hy]
      · simp only [DisplayState.get_pixel]
        rw [get_pixel_ok W H _ x y hx hy]
        simp [FrameBuffer.writePix]

/-- Witness for C3 at a concrete input: with double buffering off, the
set/get round trip through a 1×1 display returns the written color. -/
theorem c3_buffer_forwarding_witness :
    DisplayState.get_pixel 1 1
      { front_buffer := FrameBuffer.new.writePix 0 0 ⟨1, 0, 0⟩, back_buffer := FrameBuffer.new,
        current_row := 0, current_bit_plane := 0, brightness := 128,
        refresh_interval_ns := 100000, double_buffering := false } 0 0 = .ok ⟨1, 0, 0⟩ :=
  (((c3_buffer_forwarding 1 1
    { front_buffer := FrameBuffer.new, back_buffer := FrameBuffer.new, current_row := 0,
      current_bit_plane := 0, brightness := 128, refresh_interval_ns := 100000,
      double_buffering := false } 0 0 ⟨1, 0, 0⟩).2 rfl).2.2.2.2 (by decide) (by decide)).2

/-- C4: evaluation of the fade effect at the failing input. With BITS = 6,
a full-intensity channel 63 and fade step 7, the `u8` product
`63 * 7 = 441` overflows: the code yields channel `441 % 256 / 15 = 12`,
while the claimed value is `63 * 7 / 15 = 29`. -/
theorem c4_fade_at_failing_input :
    (∃ fb, apply_fade_effect 1 1 6 ⟨fun _ _ => ⟨63, 63, 63⟩⟩ 7 = .ok fb ∧
      fb.pix 0 0 = ⟨12, 12, 12⟩) ∧
    63 * 7 / 15 = 29 ∧ (12 : Nat) ≠ 29 :=
  ⟨⟨_, rfl, rfl⟩, rfl, by decide⟩

/-- C5: for consecutive frames and slide sub-step `s < W`, column `x` of the
slide effect's output at row `y` is `current[x+s, y]` when `x+s < W` and
`next[x+s-W, y]` otherwise; at `s = 0` the output equals the current
frame. -/
theorem c5_slide_effect (W H : Nat) (cur next : FrameBuffer) (s : Nat) (hs : s < W) :
    ∃ res, apply_slide_effect W H cur (some next) s = .ok res ∧
      (∀ x y, x < W → y < H →
        res.pix x y = if x + s < W then cur.pix (x + s) y else next.pix (x + s - W) y) ∧
      (s = 0 → ∀ x y, x < W → y < H → res.pix x y = cur.pix x y) := by
  have heq : apply_slide_effect W H cur (some next) s =
      .ok (iterP (fun fb2 y => iterP (fun fb3 x => fb3.writePix x y (slidePixel W H cur next s x y))
        0 W fb2) 0 H FrameBuffer.new) := by
    unfold apply_slide_effect
    refine iterE_eq_iterP _ _ H 0 _ ?_
    intro fb y hy1 hy2
    refine iterE_eq_iterP _ _ W 0 _ ?_
    intro fb2 x hx1 hx2
    exact set_pixel_ok W H fb2 x y _ (by omega) (by omega)
  have hpix : ∀ x y, x < W → y < H →
      (iterP (fun fb2 y => iterP (fun fb3 x => fb3.writePix x y (slidePixel W H cur next s x y))
        0 W fb2) 0 H FrameBuffer.new).pix x y =
      if x + s < W then cur.pix (x + s) y else next.pix (x + s - W) y := by
    intro x y hx hy
    rw [iterP_grid_pix W (slidePixel W H cur next s) H 0 FrameBuffer.new x y,
      if_pos ⟨hx, Nat.zero_le y, by omega⟩]
    unfold slidePixel
    by_cases hxs : x + s < W
    · rw [if_pos hxs, if_pos hxs, get_pixel_ok W H cur (x + s) y hxs hy, exceptD_ok]
    · rw [if_neg hxs, if_neg hxs, get_pixel_ok W H next (x + s - W) y (by omega) hy, exceptD_ok]
  refine ⟨_, heq, hpix, ?_⟩
  intro hs0 x y hx hy
  rw [hpix x y hx hy, if_pos (by omega)]
  simp [hs0]

/-- Witness for C5 at a concrete input: on a 2×1 frame pair at sub-step
`s = 1`, column 0 comes from the current frame's column 1 and column 1 wraps
to the next frame's column 0. -/
theorem c5_slide_effect_witness :
    ∃ res, apply_slide_effect 2 1 ⟨fun _ _ => ⟨1, 0, 0⟩⟩ (some ⟨fun _ _ => ⟨0, 0, 1⟩⟩) 1 =
        .ok res ∧
      res.pix 0 0 = ⟨1, 0, 0⟩ ∧ res.pix 1 0 = ⟨0, 0, 1⟩ := by
  obtain ⟨res, h1, h2, _⟩ :=
    c5_slide_effect 2 1 ⟨fun _ _ => ⟨1, 0, 0⟩⟩ ⟨fun _ _ => ⟨0, 0, 1⟩⟩ 1 (by decide)
  refine ⟨res, h1, ?_, ?_⟩
  · rw [h2 0 0 (by decide) (by decide)]
    simp
  · rw [h2 1 0 (by decide) (by decide)]
    simp

theorem apply_effect_ok (effect : AnimationEffect) (W H BITS : Nat) (cur : FrameBuffer)
    (nxt : Option FrameBuffer) (progress total : Nat) :
    ∃ fb, effect.apply_effect W H BITS cur nxt progress total = .ok fb := by
  cases effect with
  | None => exact ⟨cur, rfl⟩
  | Slide =>
    unfold AnimationEffect.apply_effect apply_slide_effect
    refine iterE_isOk _ H 0 _ ?_
    intro fb y hy1 hy2
    refine iterE_isOk _ W 0 _ ?_
    intro fb2 x hx1 hx2
    exact ⟨_, set_pixel_ok W H fb2 x y _ (by omega) (by omega)⟩
  | Fade =>
    unfold AnimationEffect.apply_effect apply_fade_effect
    refine iterE_isOk _ H 0 _ ?_
    intro fb y hy1 hy2
    refine iterE_isOk _ W 0 _ ?_
    intro fb2 x hx1 hx2
    rw [get_pixel_ok W H cur x y (by omega) (by omega)]
    exact ⟨_, set_pixel_ok W H fb2 x y _ (by omega) (by omega)⟩
  | Wipe =>
    unfold AnimationEffect.apply_effect apply_wipe_effect
    refine iterE_isOk _ H 0 _ ?_
    intro fb y hy1 hy2
    refine iterE_isOk _ W 0 _ ?_
    intro fb2 x hx1 hx2
    by_cases hxs : x ≤ progress
    · rw [if_pos hxs, get_pixel_ok W H cur x y (by omega) (by omega)]
      exact ⟨_, set_pixel_ok W H fb2 x y _ (by omega) (by omega)⟩
    · rw [if_neg hxs]
      exact ⟨fb2, rfl⟩

theorem generate_current_frame_ok (W H BITS : Nat) (a : Animation)
    (h : a.frame_index < a.frames.length) :
    ∃ fb, a.generate_current_frame W H BITS = .ok fb := by
  unfold Animation.generate_current_frame get_frame
  rw [dif_pos h]
  by_cases h2 : a.frame_index + 1 < a.frames.length
  · rw [if_pos h2, dif_pos h2]
    exact apply_effect_ok a.effect W H BITS _ _ a.sequence a.total_steps
  · rw [if_neg h2]
    exact apply_effect_ok a.effect W H BITS _ _ a.sequence a.total_steps

theorem animInv_frame_index_lt (W : Nat) (frames : List FrameBuffer) (effect : AnimationEffect)
    (a : Animation) (k : Nat)
    (hinv : AnimInv W frames effect (effect.total_steps W frames.length) a k)
    (hk : k < effect.total_steps W frames.length) :
    a.frame_index < frames.length := by
  obtain ⟨hf, he, hts, hfps, hfc, hstep, hrest⟩ := hinv
  cases effect with
  | None =>
    have hfi : a.frame_index = k := hrest
    simp only [AnimationEffect.total_steps] at hk
    omega
  | Slide =>
    have h' : k = a.frame_index * W + a.sequence ∧ a.sequence < W := hrest
    simp only [AnimationEffect.total_steps] at hk
    have h1 : a.frame_index * W < frames.length * W := by omega
    exact lt_of_mul_lt_mul_right h1 (Nat.zero_le W)
  | Fade =>
    have h' : k = a.frame_index * 16 + a.sequence ∧ a.sequence < 16 := hrest
    simp only [AnimationEffect.total_steps] at hk
    omega
  | Wipe =>
    have h' : k = a.frame_index * W + a.sequence ∧ a.sequence < W := hrest
    simp only [AnimationEffect.total_steps] at hk
    have h1 : a.frame_index * W < frames.length * W := by omega
    exact lt_of_mul_lt_mul_right h1 (Nat.zero_le W)

theorem next_of_run (W H BITS : Nat) (a : Animation) (h1 : ¬ a.step ≥ a.total_steps)
    (h2 : ¬ a.frame_counter + 1 < a.frames_per_step) (gfb : FrameBuffer)
    (hgen : Animation.generate_current_frame W H BITS { a with frame_counter := 0 } = .ok gfb) :
    a.next W H BITS = (.Apply gfb, Animation.advance_step W { a with frame_counter := 0 }) := by
  simp only [Animation.next]
  rw [if_neg h1, if_neg h2, hgen]

theorem next_of_done (W H BITS : Nat) (a : Animation) (h1 : a.step ≥ a.total_steps) :
    a.next W H BITS = (.Done, a) := by
  unfold Animation.next
  rw [if_pos h1]

theorem advance_step_inv (W : Nat) (frames : List FrameBuffer) (effect : AnimationEffect)
    (ts : Nat) (a : Animation) (k : Nat)
    (hf : a.frames = frames) (hts : a.total_steps = ts)
    (hfps : a.frames_per_step = 0) (hstep : a.step = k)
    (hrest : match effect with
      | .None => a.frame_index = k
      | .Slide => k = a.frame_index * W + a.sequence ∧ a.sequence < W
      | .Fade => k = a.frame_index * 16 + a.sequence ∧ a.sequence < 16
      | .Wipe => k = a.frame_index * W + a.sequence ∧ a.sequence < W)
    (he : a.effect = effect) :
    AnimInv W frames effect ts (Animation.advance_step W { a with frame_counter := 0 }) (k + 1) := by
  cases effect with
  | None =>
    have hfi : a.frame_index = k := hrest
    simp only [Animation.advance_step, he]
    exact ⟨hf, rfl, hts, hfps, rfl, show a.step + 1 = k + 1 by omega,
      show a.step + 1 = k + 1 by omega⟩
  | Slide =>
    obtain ⟨hk2, hseq⟩ : k = a.frame_index * W + a.sequence ∧ a.sequence < W := hrest
    simp only [Animation.advance_step, he]
    by_cases hw : a.sequence + 1 ≥ W
    · rw [if_pos hw]
      refine ⟨hf, rfl, hts, hfps, rfl, show a.step + 1 = k + 1 by omega, ?_,
        show 0 < W by omega⟩
      show k + 1 = (a.frame_index + 1) * W + 0
      rw [Nat.succ_mul]
      omega
    · rw [if_neg hw]
      exact ⟨hf, rfl, hts, hfps, rfl, show a.step + 1 = k + 1 by omega,
        show k + 1 = a.frame_index * W + (a.sequence + 1) by omega,
        show a.sequence + 1 < W by omega⟩
  | Fade =>
    obtain ⟨hk2, hseq⟩ : k = a.frame_index * 16 + a.sequence ∧ a.sequence < 16 := hrest
    simp only [Animation.advance_step, he]
    by_cases hw : a.sequence + 1 ≥ 16
    · rw [if_pos hw]
      refine ⟨hf, rfl, hts, hfps, rfl, show a.step + 1 = k + 1 by omega, ?_,
        show (0:Nat) < 16 by omega⟩
      show k + 1 = (a.frame_index + 1) * 16 + 0
      omega
    · rw [if_neg hw]
      exact ⟨hf, rfl, hts, hfps, rfl, show a.step + 1 = k + 1 by omega,
        show k + 1 = a.frame_index * 16 + (a.sequence + 1) by omega,
        show a.sequence + 1 < 16 by omega⟩
  | Wipe =>
    obtain ⟨hk2, hseq⟩ : k = a.frame_index * W + a.sequence ∧ a.sequence < W := hrest
    simp only [Animation.advance_step, he]
    by_cases hw : a.sequence + 1 ≥ W
    · rw [if_pos hw]
      refine ⟨hf, rfl, hts, hfps, rfl, show a.step + 1 = k + 1 by omega, ?_,
        show 0 < W by omega⟩
      show k + 1 = (a.frame_index + 1) * W + 0
      rw [Nat.succ_mul]
      omega
    · rw [if_neg hw]
      exact ⟨hf, rfl, hts, hfps, rfl, show a.step + 1 = k + 1 by omega,
        show k + 1 = a.frame_index * W + (a.sequence + 1) by omega,
        show a.sequence + 1 < W by omega⟩

theorem anim_step (W H BITS : Nat) (frames : List FrameBuffer) (effect : AnimationEffect)
    (a : Animation) (k : Nat)
    (hinv : AnimInv W frames effect (effect.total_steps W frames.length) a k) :
    (k < effect.total_steps W frames.length →
      (∃ f, (a.next W H BITS).1 = AnimationState.Apply f) ∧
      AnimInv W frames effect (effect.total_steps W frames.length) (a.next W H BITS).2 (k + 1)) ∧
    (effect.total_steps W frames.length ≤ k → a.next W H BITS = (AnimationState.Done, a)) := by
  obtain ⟨hf, he, hts, hfps, hfc, hstep, hrest⟩ := hinv
  constructor
  · intro hk
    have hfi : a.frame_index < frames.length :=
      animInv_frame_index_lt W frames effect a k ⟨hf, he, hts, hfps, hfc, hstep, hrest⟩ hk
    have hfi2 : ({ a with frame_counter := 0 } : Animation).frame_index <
        ({ a with frame_counter := 0 } : Animation).frames.length := by
      show a.frame_index < a.frames.length
      rw [hf]
      exact hfi
    obtain ⟨gfb, hgen⟩ := generate_current_frame_ok W H BITS { a with frame_counter := 0 } hfi2
    have h1 : ¬ a.step ≥ a.total_steps := by
      rw [hstep, hts]
      omega
    have h2 : ¬ a.frame_counter + 1 < a.frames_per_step := by
      rw [hfc, hfps]
      omega
    rw [next_of_run W H BITS a h1 h2 gfb hgen]
    exact ⟨⟨gfb, rfl⟩, advance_step_inv W frames effect _ a k hf hts hfps hstep hrest he⟩
  · intro hk
    apply next_of_done
    rw [hstep, hts]
    omega

theorem runAnim_spec (W H BITS : Nat) (frames : List FrameBuffer) (effect : AnimationEffect)
    (n : Nat) : ∀ (k : Nat) (a : Animation),
    AnimInv W frames effect (effect.total_steps W frames.length) a k →
    ((k + n < effect.total_steps W frames.length →
        ∃ f, (runAnim W H BITS a n).1 = AnimationState.Apply f) ∧
     (effect.total_steps W frames.length ≤ k + n →
        (runAnim W H BITS a n).1 = AnimationState.Done)) := by
  induction n with
  | zero =>
    intro k a hinv
    constructor
    · intro hk
      exact ((anim_step W H BITS frames effect a k hinv).1 (by omega)).1
    · intro hk
      show (a.next W H BITS).1 = AnimationState.Done
      rw [(anim_step W H BITS frames effect a k hinv).2 (by omega)]
  | succ m ih =>
    intro k a hinv
    by_cases hk : k < effect.total_steps W frames.length
    · have hstep := (anim_step W H BITS frames effect a k hinv).1 hk
      have hih := ih (k+1) (a.next W H BITS).2 hstep.2
      constructor
      · intro hbound
        exact hih.1 (by omega)
      · intro hbound
        exact hih.2 (by omega)
    · have hdone := (anim_step W H BITS frames effect a k hinv).2 (by omega)
      constructor
      · intro hbound
        exact absurd hbound (by omega)
      · intro hbound
        show (runAnim W H BITS (a.next W H BITS).2 m).1 = AnimationState.Done
        rw [hdone]
        exact (ih k a hinv).2 (by omega)

/-- C10: when the frame budget `total_frames` is smaller than the effect's
`total_steps` (and the data is nonempty), `Animation::new` still succeeds —
there is no `TooFast` error in the frame-based mode — with
`frames_per_step = 0`; every subsequent `next()` call then returns `Apply`
(never `Wait`) until the step counter reaches `total_steps`, after which
`next()` returns `Done`. -/
theorem c10_animation (W H BITS : Nat) (frames : List FrameBuffer) (effect : AnimationEffect)
    (total_frames : Nat) (hne : 0 < frames.length)
    (hbudget : total_frames < effect.total_steps W frames.length) :
    ∃ a, Animation.new W frames effect total_frames = .ok a ∧
      a.frames_per_step = 0 ∧
      a.total_steps = effect.total_steps W frames.length ∧
      (∀ n, n < effect.total_steps W frames.length →
        ∃ f, (runAnim W H BITS a n).1 = AnimationState.Apply f) ∧
      (∀ n, effect.total_steps W frames.length ≤ n →
        (runAnim W H BITS a n).1 = AnimationState.Done) := by
  have hts1 : 1 ≤ effect.total_steps W frames.length := by omega
  have hfps : total_frames / max (effect.total_steps W frames.length) 1 = 0 := by
    rw [Nat.max_eq_left hts1]
    exact Nat.div_eq_of_lt hbudget
  have hnew : Animation.new W frames effect total_frames = .ok
      { frames := frames, frame_index := 0, sequence := 0, step := 0,
        total_steps := effect.total_steps W frames.length, effect := effect,
        frames_per_step := total_frames / max (effect.total_steps W frames.length) 1,
        frame_counter := 0 } := by
    unfold Animation.new
    rw [if_neg (by omega)]
  have hinv0 : AnimInv W frames effect (effect.total_steps W frames.length)
      { frames := frames, frame_index := 0, sequence := 0, step := 0,
        total_steps := effect.total_steps W frames.length, effect := effect,
        frames_per_step := total_frames / max (effect.total_steps W frames.length) 1,
        frame_counter := 0 } 0 := by
    refine ⟨rfl, rfl, rfl, hfps, rfl, rfl, ?_⟩
    cases effect with
    | None => rfl
    | Slide =>
      have h' : 1 ≤ frames.length * W := by
        have h'' := hts1
        simp only [AnimationEffect.total_steps] at h''
        exact h''
      have hW : W ≠ 0 := by
        intro h0
        rw [h0, Nat.mul_zero] at h'
        omega
      exact ⟨show (0:Nat) = 0 * W + 0 by omega, show 0 < W by omega⟩
    | Fade =>
      exact ⟨show (0:Nat) = 0 * 16 + 0 by omega, show (0:Nat) < 16 by omega⟩
    | Wipe =>
      have h' : 1 ≤ frames.length * W := by
        have h'' := hts1
        simp only [AnimationEffect.total_steps] at h''
        exact h''
      have hW : W ≠ 0 := by
        intro h0
        rw [h0, Nat.mul_zero] at h'
        omega
      exact ⟨show (0:Nat) = 0 * W + 0 by omega, show 0 < W by omega⟩
  refine ⟨_, hnew, hfps, rfl, ?_, ?_⟩
  · intro n hn
    exact (runAnim_spec W H BITS frames effect n 0 _ hinv0).1 (by omega)
  · intro n hn
    exact (runAnim_spec W H BITS frames effect n 0 _ hinv0).2 (by omega)

/-- Witness for C10 at a concrete input: one black frame, effect `None`,
budget 0 < 1 total step; the second call returns `Done`. -/
theorem c10_animation_witness :
    ∃ a, Animation.new 1 [FrameBuffer.new] AnimationEffect.None 0 = .ok a ∧
      (∃ f, (runAnim 1 1 1 a 0).1 = AnimationState.Apply f) ∧
      (runAnim 1 1 1 a 1).1 = AnimationState.Done := by
  obtain ⟨a, h1, _, _, h4, h5⟩ :=
    c10_animation 1 1 1 [FrameBuffer.new] AnimationEffect.None 0 (by decide) (by decide)
  exact ⟨a, h1, h4 0 (by decide), h5 1 (by decide)⟩

end Hub75

